import Mathlib

/-!
# Verification of go-pkgs: task group and RabbitMQ consumer

This file gives a shallow embedding of two components of the repository:

* the RabbitMQ consumer adapter (`src/rabbitmq/consumer.go`, `src/rabbitmq/handler.go`),
  translated directly from the Go source; and
* the task group (`task` package).  The repository ships only the package's test file
  `src/task/group_test.go`; the implementation `group.go` is absent, so the group is
  modelled from the specification (its tests are used as the behavioural oracle).

Machine details that do not affect the verified behaviour (logging, stack traces beyond
the wrapping message, AMQP wire arguments that the code passes as constants) are elided.
-/

/- ### RabbitMQ: errors and `stacktrace.Propagate` -/

/-- Errors as they flow through the consumer: either an opaque error produced by the
handler, the broker or the context (identified by a code), or an error wrapped by
`stacktrace.Propagate(err, msg)`. -/
inductive RErr where
  | base (code : Nat)
  | wrapped (msg : String) (inner : RErr)
deriving DecidableEq, Repr

/-- `stacktrace.Propagate(err, msg)`: returns nil on a nil error, otherwise wraps the
error with the message. -/
def propagate (e : Option RErr) (msg : String) : Option RErr :=
  match e with
  | none => none
  | some e => some (RErr.wrapped msg e)

/- ### RabbitMQ: handler.go -/

/-- `AcknowledgementType` from handler.go: `Ack`, `Nack`, `Reject` (iota enum). -/
inductive AcknowledgementType where
  | Ack
  | Nack
  | Reject
deriving DecidableEq, Repr

/-- `HandlerAcknowledgement` from handler.go: an acknowledgement type and a requeue flag. -/
structure HandlerAcknowledgement where
  Acknowledgement : AcknowledgementType
  Requeue : Bool
deriving DecidableEq, Repr

/-- The `Handler` interface from handler.go.  The query methods become fields;
`ReceiveMessage(ctx, payload)` becomes a function of the payload returning the
acknowledgement together with an optional error (the `ctx` argument and
`GetConsumeContext` only thread a context through and are elided). -/
structure Handler where
  GetQueueName : String
  GetConsumerTag : String
  QueueAutoAck : Bool
  ExclusiveConsumer : Bool
  MustStopOnAckError : Bool
  MustStopOnNAckError : Bool
  MustStopOnRejectError : Bool
  WaitToConsumeInflight : Bool
  ReceiveMessage : List Nat → HandlerAcknowledgement × Option RErr

/- ### RabbitMQ: consumer.go -/

/-- An AMQP delivery as the consumer sees it: the payload body, and the broker's
response to each possible acknowledgement call on this delivery (`d.Ack`, `d.Nack`,
`d.Reject` each either succeed or return an error; this is environment behaviour,
so it is carried on the delivery). -/
structure Delivery where
  body : List Nat
  ackErr : Option RErr
  nackErr : Option RErr
  rejectErr : Option RErr
deriving DecidableEq, Repr

/-- A broker acknowledgement action attempted by the consumer: `d.Ack(false)`,
`d.Nack(false, requeue)` or `d.Reject(requeue)`. -/
inductive BrokerAction where
  | ackAct
  | nackAct (requeue : Bool)
  | rejectAct (requeue : Bool)
deriving DecidableEq, Repr

/-- Result of `handleDeliveries`: the broker actions attempted for each delivery that
was taken off the channel (in order), the returned error (none on clean termination),
and whether `c.done <- true` was reached (it is the last statement of the loop body's
fall-through, executed only when the range over deliveries ends without error). -/
structure HDResult where
  attempted : List (List BrokerAction)
  error : Option RErr
  done : Bool
deriving DecidableEq, Repr

/-- The acknowledgement dispatch inside the loop of `handleDeliveries`
(consumer.go): the consumer tests the `ack`, `nack` and `reject` flags of the
handler's acknowledgement in turn — on the `AcknowledgementType` enum exactly one
holds, so this is an exhaustive case split.  The chosen broker call is attempted; if
it fails and the matching `MustStopOn…Error` policy flag is set, the loop stops with
the wrapped error, otherwise the loop continues. -/
def dispatchDelivery (h : Handler) (ackn : HandlerAcknowledgement) (d : Delivery) :
    List BrokerAction × Option RErr :=
  match ackn.Acknowledgement with
  | AcknowledgementType.Ack =>
      ([BrokerAction.ackAct],
        match d.ackErr with
        | none => none
        | some e =>
            if h.MustStopOnAckError
            then some (RErr.wrapped "stop consuming due to ack error" e)
            else none)
  | AcknowledgementType.Nack =>
      ([BrokerAction.nackAct ackn.Requeue],
        match d.nackErr with
        | none => none
        | some e =>
            if h.MustStopOnNAckError
            then some (RErr.wrapped "stop consuming due to nack error" e)
            else none)
  | AcknowledgementType.Reject =>
      ([BrokerAction.rejectAct ackn.Requeue],
        match d.rejectErr with
        | none => none
        | some e =>
            if h.MustStopOnRejectError
            then some (RErr.wrapped "stop consuming due to reject error" e)
            else none)

/-- `handleDeliveries` (consumer.go): loop over the delivery channel.  For each
delivery: call the handler; a handler error aborts immediately (wrapped, `done` never
signalled); in auto-acknowledge mode no broker action is attempted; otherwise dispatch
the single acknowledgement action and either stop (policy flag on a failed call) or
continue with the next delivery.  When the channel is exhausted, `done` is signalled. -/
def handleDeliveries (h : Handler) : List Delivery → HDResult
  | [] => { attempted := [], error := none, done := true }
  | d :: rest =>
      match h.ReceiveMessage d.body with
      | (_, some e) =>
          { attempted := [[]],
            error := some (RErr.wrapped "handler returned error" e),
            done := false }
      | (ackn, none) =>
          if h.QueueAutoAck then
            let r := handleDeliveries h rest
            { attempted := [] :: r.attempted, error := r.error, done := r.done }
          else
            match dispatchDelivery h ackn d with
            | (acts, some e) => { attempted := [acts], error := some e, done := false }
            | (acts, none) =>
                let r := handleDeliveries h rest
                { attempted := acts :: r.attempted, error := r.error, done := r.done }

/-- The resource steps the cancellation goroutine of `Run` can take, in the order
they appear in its body: `channel.Cancel(tag, false)`, `channel.Close()`,
`<-c.done`, `client.Close()`. -/
inductive RunEvent where
  | cancelSubscription
  | closeChannel
  | waitDone
  | closeClient
deriving DecidableEq, Repr

/-- The resource events of the cancellation goroutine spawned by `Run`
(consumer.go): after `<-ctx.Done()` it cancels the broker subscription, closes the
channel right away unless the handler asks to drain in-flight deliveries first, then
blocks on `<-c.done` and finally closes the client.  `doneSignalled` says whether the
delivery loop ever signals `done`; when it does not, the goroutine stays blocked and
the final close is never reached. -/
def cancellationEvents (h : Handler) (doneSignalled : Bool) : List RunEvent :=
  [RunEvent.cancelSubscription]
    ++ (if h.WaitToConsumeInflight then [] else [RunEvent.closeChannel])
    ++ (if doneSignalled then [RunEvent.waitDone, RunEvent.closeClient] else [])

/-- The main path of `Run` (consumer.go): return the context's error if the run
context is already cancelled; otherwise start consuming (an error here is wrapped);
otherwise run `handleDeliveries` and wrap its result.  `ctxErr` is `ctx.Err()` at the
check and `consumeErr` the result of `channel.Consume`. -/
def consumerRun (h : Handler) (ctxErr : Option RErr) (consumeErr : Option RErr)
    (ds : List Delivery) : Option RErr :=
  match ctxErr with
  | some e => some e
  | none =>
      match consumeErr with
      | some e => some (RErr.wrapped "couldn't start consuming from channel" e)
      | none => propagate (handleDeliveries h ds).error "stopped consumer"

/-- The broker action that corresponds to a handler acknowledgement, used to state
that the consumer performs exactly the action the handler chose. -/
def brokerActionOf (a : HandlerAcknowledgement) : BrokerAction :=
  match a.Acknowledgement with
  | AcknowledgementType.Ack => BrokerAction.ackAct
  | AcknowledgementType.Nack => BrokerAction.nackAct a.Requeue
  | AcknowledgementType.Reject => BrokerAction.rejectAct a.Requeue

/- ### Task group: the tasks of the behavioural oracle (group_test.go) -/

/-- Errors surfaced by `Wait`: a task's own error (codes stand for distinct error
values such as `assert.AnError`) or the wait context's `context.DeadlineExceeded`. -/
inductive GroupError where
  | taskError (code : Nat)
  | deadlineExceeded
deriving DecidableEq, Repr

/-- Execution status of a `TestTask` (group_test.go): not yet launched, its `Run`
in flight, or returned. -/
inductive TaskStatus where
  | notLaunched
  | running
  | done
deriving DecidableEq, Repr

/-- The observable state of a `TestTask` (group_test.go): `RunCount` counts entries
into `Run`, `StopCount` counts returns taken through the `<-ctx.Done()` branch. -/
structure TaskState where
  runCount : Nat
  stopCount : Nat
  status : TaskStatus
deriving DecidableEq, Repr

/-- Modelled from the spec: the state of the missing `task.Group` (`group.go` is not
in the sources; only `group_test.go` is).  `cancelSignal` is the broadcast one-shot
cancellation signal, `firstError` the write-once first-error slot holding a task
error code, and `running` the count of launched-but-not-returned units; the group is
settled exactly when `running = 0`. -/
structure GroupState where
  cancelSignal : Bool
  firstError : Option Nat
  running : Nat
deriving DecidableEq, Repr

/-- A whole system: the group, the tasks it may launch (indexed by position), and
whether the caller's wait deadline has elapsed (path (b) of `Wait`). -/
structure SysState where
  group : GroupState
  tasks : List TaskState
  deadlineElapsed : Bool
deriving DecidableEq, Repr

/-- Scheduler events interleaving group operations, task completions and the wait
deadline: `go idxs` is `Group.Go` on the tasks at `idxs`; `cancel` is `Group.Cancel`;
`finish i res` is task `i` receiving `res` on its `RunUntil` channel and returning
it; `stopOnCancel i` is task `i` taking the `<-ctx.Done()` branch (possible only
once `cancelSignal` is triggered); `deadline` is the caller's wait context expiring,
which `Wait` converts into a trigger of `cancelSignal`. -/
inductive GEvent where
  | go (idxs : List Nat)
  | cancel
  | finish (i : Nat) (res : Option Nat)
  | stopOnCancel (i : Nat)
  | deadline
deriving DecidableEq, Repr

/-- Replace the task at index `i` (identity outside the list). -/
def modifyNth (f : TaskState → TaskState) : List TaskState → Nat → List TaskState
  | [], _ => []
  | t :: ts, 0 => f t :: ts
  | t :: ts, n + 1 => t :: modifyNth f ts n

/-- Modelled from the spec: one step of the missing `Group.Go` for a single task
function.  If `cancelSignal` is already triggered the function is not invoked at all
and does not count toward `running`; otherwise `running` is incremented and the task
starts executing (its `RunCount` is incremented as its `Run` is entered). -/
def launchOne (s : SysState) (i : Nat) : SysState :=
  if s.group.cancelSignal then s
  else
    match s.tasks[i]? with
    | none => s
    | some t =>
        if t.status = TaskStatus.notLaunched then
          { s with
            tasks := modifyNth
              (fun t => { t with status := TaskStatus.running, runCount := t.runCount + 1 })
              s.tasks i,
            group := { s.group with running := s.group.running + 1 } }
        else s

/-- Modelled from the spec: a launched unit of the missing `Group` returns `res` of
its own accord.  `running` is decremented; if the result is a non-nil error,
`cancelSignal` is triggered and the error is stored in `firstError` when that slot
is still empty. -/
def finishTask (s : SysState) (i : Nat) (res : Option Nat) : SysState :=
  match s.tasks[i]? with
  | none => s
  | some t =>
      if t.status = TaskStatus.running then
        let tasks' := modifyNth (fun t => { t with status := TaskStatus.done }) s.tasks i
        match res with
        | some c =>
            { s with
              tasks := tasks',
              group :=
                { cancelSignal := true,
                  firstError :=
                    match s.group.firstError with
                    | none => some c
                    | some c0 => some c0,
                  running := s.group.running - 1 } }
        | none =>
            { s with
              tasks := tasks',
              group := { s.group with running := s.group.running - 1 } }
      else s

/-- A launched task observes the triggered `cancelSignal`, increments its
`StopCount` and returns nil (the `<-ctx.Done()` branch of `TestTask.Run`); no error
is recorded for the group. -/
def stopTask (s : SysState) (i : Nat) : SysState :=
  if s.group.cancelSignal then
    match s.tasks[i]? with
    | none => s
    | some t =>
        if t.status = TaskStatus.running then
          { s with
            tasks := modifyNth
              (fun t => { t with status := TaskStatus.done, stopCount := t.stopCount + 1 })
              s.tasks i,
            group := { s.group with running := s.group.running - 1 } }
        else s
  else s

/-- Modelled from the spec: the transition function of the missing `Group`.
`Cancel` idempotently triggers `cancelSignal`; `Go` gates-or-launches each supplied
function in order; the deadline event records that the caller's wait deadline
elapsed and triggers `cancelSignal` exactly as `Cancel` would. -/
def stepEvent (s : SysState) (e : GEvent) : SysState :=
  match e with
  | GEvent.go idxs => idxs.foldl launchOne s
  | GEvent.cancel => { s with group := { s.group with cancelSignal := true } }
  | GEvent.finish i res => finishTask s i res
  | GEvent.stopOnCancel i => stopTask s i
  | GEvent.deadline =>
      { s with deadlineElapsed := true, group := { s.group with cancelSignal := true } }

/-- Run a sequence of events from a state. -/
def runEvents (s : SysState) (es : List GEvent) : SysState :=
  es.foldl stepEvent s

/-- The fresh system of `NewGroup` with `n` test tasks: signal untriggered, no error,
nothing running, every task unlaunched with zero counters. -/
def initSys (n : Nat) : SysState :=
  { group := { cancelSignal := false, firstError := none, running := 0 },
    tasks := List.replicate n { runCount := 0, stopCount := 0, status := TaskStatus.notLaunched },
    deadlineElapsed := false }

/-- Modelled from the spec: the return-value resolution of the missing `Group.Wait`
at settlement — a stored first task error outranks the deadline signal, the deadline
error is reported only when the wait deadline elapsed, otherwise no error. -/
def waitResult (s : SysState) : Option GroupError :=
  match s.group.firstError with
  | some c => some (GroupError.taskError c)
  | none => if s.deadlineElapsed then some GroupError.deadlineExceeded else none

/-- Modelled from the spec: the missing `Group.Wait` as a trace observer.  Called in
state `s` with the subsequent scheduler events `es`, it returns at the first settled
state (`running = 0`), yielding the resolved value and the settlement state; `none`
means the trace ends with units still in flight, i.e. `Wait` is still blocked. -/
def waitFromState (s : SysState) : List GEvent → Option (Option GroupError × SysState)
  | [] => if s.group.running = 0 then some (waitResult s, s) else none
  | e :: es =>
      if s.group.running = 0 then some (waitResult s, s)
      else waitFromState (stepEvent s e) es

/-- Number of tasks currently in flight. -/
def countRunning (ts : List TaskState) : Nat :=
  ts.countP (fun t => t.status == TaskStatus.running)

/-- The join invariant: the group's `running` counter agrees with the number of
tasks whose `Run` is in flight. -/
def wfSys (s : SysState) : Prop :=
  s.group.running = countRunning s.tasks

/-- An event that can contribute no error to the group: anything but a task
finishing with a non-nil error or the wait deadline elapsing. -/
def benignEvent : GEvent → Bool
  | GEvent.finish _ (some _) => false
  | GEvent.deadline => false
  | _ => true

/- ### Concrete instances used to evaluate the theorems on closed inputs -/

/-- A concrete handler: payload `[1]` is nacked, `[2]` rejected, `[3]` makes the
handler fail with error code 9, everything else is acked. -/
def sampleHandler : Handler :=
  { GetQueueName := "queue"
    GetConsumerTag := "consumer"
    QueueAutoAck := false
    ExclusiveConsumer := false
    MustStopOnAckError := true
    MustStopOnNAckError := false
    MustStopOnRejectError := true
    WaitToConsumeInflight := false
    ReceiveMessage := fun p =>
      match p with
      | [1] => ({ Acknowledgement := AcknowledgementType.Nack, Requeue := true }, none)
      | [2] => ({ Acknowledgement := AcknowledgementType.Reject, Requeue := true }, none)
      | [3] => ({ Acknowledgement := AcknowledgementType.Ack, Requeue := false },
                some (RErr.base 9))
      | _ => ({ Acknowledgement := AcknowledgementType.Ack, Requeue := false }, none) }

/-- A delivery on which every broker acknowledgement call succeeds. -/
def cleanDelivery (b : List Nat) : Delivery :=
  { body := b, ackErr := none, nackErr := none, rejectErr := none }

/-- A delivery on which every broker acknowledgement call fails with error code 5. -/
def failingDelivery (b : List Nat) : Delivery :=
  { body := b
    ackErr := some (RErr.base 5)
    nackErr := some (RErr.base 5)
    rejectErr := some (RErr.base 5) }

/- ### Concrete group scenarios (the shapes exercised by group_test.go) -/

/-- Two tasks launched with `Go(foo.Run, bar.Run)`, both still in flight. -/
def launchedPair : SysState := runEvents (initSys 2) [GEvent.go [0, 1]]

/-- A two-task group cancelled before any `Go`. -/
def cancelledSys : SysState := runEvents (initSys 2) [GEvent.cancel]

/-- Settlement state of the deadline scenario: the wait deadline elapsed, both tasks
stopped through cancellation. -/
def settledAfterDeadline : SysState :=
  { group := { cancelSignal := true, firstError := none, running := 0 },
    tasks := [{ runCount := 1, stopCount := 1, status := TaskStatus.done },
              { runCount := 1, stopCount := 1, status := TaskStatus.done }],
    deadlineElapsed := true }

/-- Settlement state of the explicit-cancel scenario: no error recorded, both tasks
stopped through cancellation. -/
def settledAfterCancel : SysState :=
  { group := { cancelSignal := true, firstError := none, running := 0 },
    tasks := [{ runCount := 1, stopCount := 1, status := TaskStatus.done },
              { runCount := 1, stopCount := 1, status := TaskStatus.done }],
    deadlineElapsed := false }

/-- Settlement state of the first-failure scenario with error code 5: the failing
task returned on its own, its sibling stopped through cancellation. -/
def settledAfterError5 : SysState :=
  { group := { cancelSignal := true, firstError := some 5, running := 0 },
    tasks := [{ runCount := 1, stopCount := 0, status := TaskStatus.done },
              { runCount := 1, stopCount := 1, status := TaskStatus.done }],
    deadlineElapsed := false }

/- ### Theorems: RabbitMQ consumer -/

/-- C7: The handler's deliver-a-message operation yields, per delivery, exactly one
acknowledgement outcome (with its requeue flag) or an error; and for every delivery
in non-auto-acknowledge mode that yields an outcome, the consumer attempts exactly
the one broker action corresponding to that outcome and no other. -/
theorem consumer_exactly_one_ack_action (h : Handler) (d : Delivery) (rest : List Delivery)
    (ackn : HandlerAcknowledgement)
    (hr : h.ReceiveMessage d.body = (ackn, none)) (hauto : h.QueueAutoAck = false) :
    (dispatchDelivery h ackn d).1 = [brokerActionOf ackn]
    ∧ (handleDeliveries h (d :: rest)).attempted.head? = some [brokerActionOf ackn] := by
  have h1 : (dispatchDelivery h ackn d).1 = [brokerActionOf ackn] := by
    cases hA : ackn.Acknowledgement <;>
      simp [dispatchDelivery, brokerActionOf, hA]
  refine ⟨h1, ?_⟩
  rcases hd : dispatchDelivery h ackn d with ⟨acts, stopErr⟩
  have hacts : acts = [brokerActionOf ackn] := by
    have := congrArg Prod.fst hd
    simpa [h1] using this.symm
  cases stopErr <;>
    simp [handleDeliveries, hr, hauto, hd, hacts]

/-- C7 witness: on a concrete handler and delivery the consumer attempts exactly the
single nack action chosen by the handler. -/
theorem consumer_exactly_one_ack_action_witness :
    (dispatchDelivery sampleHandler
        { Acknowledgement := AcknowledgementType.Nack, Requeue := true }
        (cleanDelivery [1])).1
      = [brokerActionOf { Acknowledgement := AcknowledgementType.Nack, Requeue := true }]
    ∧ (handleDeliveries sampleHandler [cleanDelivery [1]]).attempted.head?
      = some [brokerActionOf { Acknowledgement := AcknowledgementType.Nack, Requeue := true }] :=
  consumer_exactly_one_ack_action sampleHandler (cleanDelivery [1]) []
    { Acknowledgement := AcknowledgementType.Nack, Requeue := true }
    (by decide) (by decide)

/-- C8: When the run context is cancelled, the cancellation goroutine first cancels
the broker subscription; it closes the channel immediately exactly when the handler
does not ask to drain in-flight deliveries; and it closes the client connection only
once the delivery loop has signalled `done`, as its very last step. -/
theorem consumer_shutdown_order (h : Handler) (b : Bool) :
    (cancellationEvents h b).head? = some RunEvent.cancelSubscription
    ∧ (RunEvent.closeChannel ∈ cancellationEvents h b ↔ h.WaitToConsumeInflight = false)
    ∧ (RunEvent.closeClient ∈ cancellationEvents h b ↔ b = true)
    ∧ (cancellationEvents h true).getLast? = some RunEvent.closeClient := by
  cases hw : h.WaitToConsumeInflight <;> cases b <;>
    simp [cancellationEvents, hw]

/-- C9: For a delivery in non-auto-acknowledge mode whose chosen broker action
fails, the consumer stops with the wrapped error exactly when the matching
`MustStopOn…Error` flag is set, and otherwise continues with the remaining
deliveries. -/
theorem consumer_stop_flag_policy (h : Handler) (d : Delivery) (rest : List Delivery)
    (ackn : HandlerAcknowledgement) (e : RErr)
    (hr : h.ReceiveMessage d.body = (ackn, none)) (hauto : h.QueueAutoAck = false) :
    (ackn.Acknowledgement = AcknowledgementType.Ack → d.ackErr = some e →
      handleDeliveries h (d :: rest) =
        if h.MustStopOnAckError then
          { attempted := [[BrokerAction.ackAct]],
            error := some (RErr.wrapped "stop consuming due to ack error" e),
            done := false }
        else
          { attempted := [BrokerAction.ackAct] :: (handleDeliveries h rest).attempted,
            error := (handleDeliveries h rest).error,
            done := (handleDeliveries h rest).done })
    ∧ (ackn.Acknowledgement = AcknowledgementType.Nack → d.nackErr = some e →
      handleDeliveries h (d :: rest) =
        if h.MustStopOnNAckError then
          { attempted := [[BrokerAction.nackAct ackn.Requeue]],
            error := some (RErr.wrapped "stop consuming due to nack error" e),
            done := false }
        else
          { attempted := [BrokerAction.nackAct ackn.Requeue]
              :: (handleDeliveries h rest).attempted,
            error := (handleDeliveries h rest).error,
            done := (handleDeliveries h rest).done })
    ∧ (ackn.Acknowledgement = AcknowledgementType.Reject → d.rejectErr = some e →
      handleDeliveries h (d :: rest) =
        if h.MustStopOnRejectError then
          { attempted := [[BrokerAction.rejectAct ackn.Requeue]],
            error := some (RErr.wrapped "stop consuming due to reject error" e),
            done := false }
        else
          { attempted := [BrokerAction.rejectAct ackn.Requeue]
              :: (handleDeliveries h rest).attempted,
            error := (handleDeliveries h rest).error,
            done := (handleDeliveries h rest).done }) := by
  refine ⟨?_, ?_, ?_⟩
  · intro hA hE
    cases hf : h.MustStopOnAckError <;>
      simp [handleDeliveries, hr, hauto, dispatchDelivery, hA, hE, hf]
  · intro hA hE
    cases hf : h.MustStopOnNAckError <;>
      simp [handleDeliveries, hr, hauto, dispatchDelivery, hA, hE, hf]
  · intro hA hE
    cases hf : h.MustStopOnRejectError <;>
      simp [handleDeliveries, hr, hauto, dispatchDelivery, hA, hE, hf]

/-- C9 witness: on a delivery whose ack call fails, the sample handler (whose
stop-on-ack-error flag is set) stops with the wrapped broker error. -/
theorem consumer_stop_flag_policy_witness :
    handleDeliveries sampleHandler (failingDelivery [0] :: []) =
      if sampleHandler.MustStopOnAckError then
        { attempted := [[BrokerAction.ackAct]],
          error := some (RErr.wrapped "stop consuming due to ack error" (RErr.base 5)),
          done := false }
      else
        { attempted := [BrokerAction.ackAct] :: (handleDeliveries sampleHandler []).attempted,
          error := (handleDeliveries sampleHandler []).error,
          done := (handleDeliveries sampleHandler []).done } :=
  (consumer_stop_flag_policy sampleHandler (failingDelivery [0]) []
    { Acknowledgement := AcknowledgementType.Ack, Requeue := false } (RErr.base 5)
    (by decide) (by decide)).1 rfl rfl

/-- C10: A handler error on a delivery aborts the loop before any broker action for
that delivery and before any later delivery is processed; `Run` returns the handler
error wrapped twice, `done` is never signalled, and so the cancellation goroutine's
final `client.Close()` is never reached. -/
theorem consumer_handler_error_aborts (h : Handler) (d : Delivery) (rest : List Delivery)
    (ackn : HandlerAcknowledgement) (e : RErr)
    (hr : h.ReceiveMessage d.body = (ackn, some e)) :
    handleDeliveries h (d :: rest) =
      { attempted := [[]],
        error := some (RErr.wrapped "handler returned error" e),
        done := false }
    ∧ consumerRun h none none (d :: rest)
        = some (RErr.wrapped "stopped consumer" (RErr.wrapped "handler returned error" e))
    ∧ RunEvent.closeClient ∉ cancellationEvents h (handleDeliveries h (d :: rest)).done := by
  have h1 : handleDeliveries h (d :: rest) =
      { attempted := [[]],
        error := some (RErr.wrapped "handler returned error" e),
        done := false } := by
    simp [handleDeliveries, hr]
  refine ⟨h1, ?_, ?_⟩
  · simp [consumerRun, h1, propagate]
  · rw [h1]
    cases hw : h.WaitToConsumeInflight <;> simp [cancellationEvents, hw]

/-- C10 witness: on the payload that makes the sample handler fail, the loop aborts
with the doubly wrapped error and the final close is unreachable. -/
theorem consumer_handler_error_aborts_witness :
    handleDeliveries sampleHandler (cleanDelivery [3] :: [cleanDelivery [0]]) =
      { attempted := [[]],
        error := some (RErr.wrapped "handler returned error" (RErr.base 9)),
        done := false }
    ∧ consumerRun sampleHandler none none (cleanDelivery [3] :: [cleanDelivery [0]])
        = some (RErr.wrapped "stopped consumer"
            (RErr.wrapped "handler returned error" (RErr.base 9)))
    ∧ RunEvent.closeClient ∉
        cancellationEvents sampleHandler
          (handleDeliveries sampleHandler (cleanDelivery [3] :: [cleanDelivery [0]])).done :=
  consumer_handler_error_aborts sampleHandler (cleanDelivery [3]) [cleanDelivery [0]]
    { Acknowledgement := AcknowledgementType.Ack, Requeue := false } (RErr.base 9)
    (by decide)

/- ### Lemmas: task group invariants -/

/-- Replacing the entry at a valid index changes `countP` by the predicate's value
on the old and new entries. -/
theorem countP_modifyNth (p : TaskState → Bool) (f : TaskState → TaskState) :
    ∀ (ts : List TaskState) (i : Nat) (t : TaskState), ts[i]? = some t →
      (modifyNth f ts i).countP p + (if p t then 1 else 0)
        = ts.countP p + (if p (f t) then 1 else 0)
  | [], i, t, h => by simp at h
  | t0 :: ts, 0, t, h => by
      rw [List.getElem?_cons_zero, Option.some.injEq] at h
      subst h
      cases hp : p t0 <;> cases hpf : p (f t0) <;>
        simp [modifyNth, List.countP_cons, hp, hpf]
  | t0 :: ts, i + 1, t, h => by
      rw [List.getElem?_cons_succ] at h
      have ih := countP_modifyNth p f ts i t h
      cases hp : p t <;> cases hpf : p (f t) <;> cases hp0 : p t0 <;>
        simp [modifyNth, List.countP_cons, hp, hpf, hp0] at ih ⊢ <;> omega

/-- `launchOne` keeps the running counter in sync with the tasks in flight. -/
theorem launchOne_wf {s : SysState} (i : Nat) (h : wfSys s) : wfSys (launchOne s i) := by
  unfold launchOne
  split
  · exact h
  split
  · exact h
  next t hg =>
    split
    next hs =>
      have hcount := countP_modifyNth (fun t => t.status == TaskStatus.running)
        (fun t => { t with status := TaskStatus.running, runCount := t.runCount + 1 })
        s.tasks i t hg
      unfold wfSys countRunning at h ⊢
      simp [hs] at hcount
      dsimp only
      omega
    next hs => exact h

/-- `finishTask` keeps the running counter in sync with the tasks in flight. -/
theorem finishTask_wf {s : SysState} (i : Nat) (res : Option Nat) (h : wfSys s) :
    wfSys (finishTask s i res) := by
  unfold finishTask
  split
  · exact h
  next t hg =>
    split
    next hs =>
      have hcount := countP_modifyNth (fun t => t.status == TaskStatus.running)
        (fun t => { t with status := TaskStatus.done }) s.tasks i t hg
      unfold wfSys countRunning at h ⊢
      simp [hs] at hcount
      cases res <;> dsimp only <;> omega
    next hs => exact h

/-- `stopTask` keeps the running counter in sync with the tasks in flight. -/
theorem stopTask_wf {s : SysState} (i : Nat) (h : wfSys s) : wfSys (stopTask s i) := by
  unfold stopTask
  split
  · split
    · exact h
    next t hg =>
      split
      next hs =>
        have hcount := countP_modifyNth (fun t => t.status == TaskStatus.running)
          (fun t => { t with status := TaskStatus.done, stopCount := t.stopCount + 1 })
          s.tasks i t hg
        unfold wfSys countRunning at h ⊢
        simp [hs] at hcount
        dsimp only
        omega
      next hs => exact h
  · exact h

/-- A whole `Go` call keeps the running counter in sync. -/
theorem foldl_launchOne_wf :
    ∀ (idxs : List Nat) (s : SysState), wfSys s → wfSys (idxs.foldl launchOne s)
  | [], _, h => h
  | i :: idxs, s, h => foldl_launchOne_wf idxs (launchOne s i) (launchOne_wf i h)

/-- Every scheduler event keeps the running counter in sync. -/
theorem stepEvent_wf {s : SysState} (e : GEvent) (h : wfSys s) : wfSys (stepEvent s e) := by
  cases e with
  | go idxs => exact foldl_launchOne_wf idxs s h
  | cancel => exact h
  | finish i res => exact finishTask_wf i res h
  | stopOnCancel i => exact stopTask_wf i h
  | deadline => exact h

/-- A result of `Wait` is always resolved from the settlement state: it is returned
exactly when `running` first reaches zero, by `waitResult`. -/
theorem waitFromState_spec :
    ∀ (es : List GEvent) (s : SysState) (r : Option GroupError) (s' : SysState),
      waitFromState s es = some (r, s') → r = waitResult s' ∧ s'.group.running = 0
  | [], s, r, s', h => by
      unfold waitFromState at h
      split at h
      next h0 =>
        rw [Option.some.injEq, Prod.mk.injEq] at h
        obtain ⟨hr, hs⟩ := h
        subst hr; subst hs
        exact ⟨rfl, h0⟩
      next => exact absurd h (by simp)
  | e :: es, s, r, s', h => by
      unfold waitFromState at h
      split at h
      next h0 =>
        rw [Option.some.injEq, Prod.mk.injEq] at h
        obtain ⟨hr, hs⟩ := h
        subst hr; subst hs
        exact ⟨rfl, h0⟩
      next => exact waitFromState_spec es (stepEvent s e) r s' h

/-- Any property preserved by the events of the trace transfers from the state where
`Wait` is called to the settlement state it returns. -/
theorem waitFromState_preserve (P : SysState → Prop) :
    ∀ (es : List GEvent) (s : SysState), P s →
      (∀ e ∈ es, ∀ u : SysState, P u → P (stepEvent u e)) →
      ∀ (r : Option GroupError) (s' : SysState),
        waitFromState s es = some (r, s') → P s'
  | [], s, hP, _, r, s', h => by
      unfold waitFromState at h
      split at h
      · rw [Option.some.injEq, Prod.mk.injEq] at h
        rw [← h.2]
        exact hP
      · exact absurd h (by simp)
  | e :: es, s, hP, hstep, r, s', h => by
      unfold waitFromState at h
      split at h
      · rw [Option.some.injEq, Prod.mk.injEq] at h
        rw [← h.2]
        exact hP
      · exact waitFromState_preserve P es (stepEvent s e)
          (hstep e (List.mem_cons_self e es) s hP)
          (fun e' he' => hstep e' (List.mem_cons_of_mem e he')) r s' h

/-- Any property preserved by the events of the trace holds after running it. -/
theorem runEvents_preserve (P : SysState → Prop) :
    ∀ (es : List GEvent) (s : SysState), P s →
      (∀ e ∈ es, ∀ u : SysState, P u → P (stepEvent u e)) →
      P (runEvents s es)
  | [], _, hP, _ => hP
  | e :: es, s, hP, hstep => by
      rw [runEvents, List.foldl_cons]
      exact runEvents_preserve P es (stepEvent s e)
        (hstep e (List.mem_cons_self e es) s hP)
        (fun e' he' => hstep e' (List.mem_cons_of_mem e he'))

/-- Once `cancelSignal` is triggered, `Go` launches nothing and leaves the whole
state unchanged. -/
theorem foldl_launchOne_cancelled :
    ∀ (idxs : List Nat) (s : SysState), s.group.cancelSignal = true →
      idxs.foldl launchOne s = s
  | [], _, _ => rfl
  | i :: idxs, s, h => by
      have h1 : launchOne s i = s := by simp [launchOne, h]
      rw [List.foldl_cons, h1]
      exact foldl_launchOne_cancelled idxs s h

/-- `cancelSignal` is monotone: no event untriggers it. -/
theorem stepEvent_cancel_mono (s : SysState) (e : GEvent)
    (hc : s.group.cancelSignal = true) : (stepEvent s e).group.cancelSignal = true := by
  cases e with
  | go idxs =>
      show (idxs.foldl launchOne s).group.cancelSignal = true
      rw [foldl_launchOne_cancelled idxs s hc]
      exact hc
  | cancel => rfl
  | deadline => rfl
  | finish i res =>
      show (finishTask s i res).group.cancelSignal = true
      unfold finishTask
      cases s.tasks[i]? with
      | none => exact hc
      | some t =>
          dsimp only
          split
          · cases res <;> simp [hc]
          · exact hc
  | stopOnCancel i =>
      show (stopTask s i).group.cancelSignal = true
      unfold stopTask
      rw [if_pos hc]
      cases s.tasks[i]? with
      | none => exact hc
      | some t =>
          dsimp only
          split
          · exact hc
          · exact hc

/-- A launch touches neither the first-error slot nor the deadline flag. -/
theorem launchOne_no_error (s : SysState) (i : Nat) :
    (launchOne s i).group.firstError = s.group.firstError
    ∧ (launchOne s i).deadlineElapsed = s.deadlineElapsed := by
  unfold launchOne
  split
  · exact ⟨rfl, rfl⟩
  split
  · exact ⟨rfl, rfl⟩
  split
  · exact ⟨rfl, rfl⟩
  · exact ⟨rfl, rfl⟩

/-- A benign event (no task failure, no deadline elapse) records no error and does
not set the deadline flag: cancellation alone contributes no error. -/
theorem stepEvent_benign_no_error (s : SysState) (e : GEvent)
    (hb : benignEvent e = true)
    (h : s.group.firstError = none ∧ s.deadlineElapsed = false) :
    (stepEvent s e).group.firstError = none ∧ (stepEvent s e).deadlineElapsed = false := by
  cases e with
  | go idxs =>
      show (idxs.foldl launchOne s).group.firstError = none
        ∧ (idxs.foldl launchOne s).deadlineElapsed = false
      induction idxs generalizing s with
      | nil => exact h
      | cons i idxs ih =>
          rw [List.foldl_cons]
          exact ih (launchOne s i)
            ⟨(launchOne_no_error s i).1.trans h.1, (launchOne_no_error s i).2.trans h.2⟩
            rfl
  | cancel => exact h
  | deadline => exact absurd hb (by simp [benignEvent])
  | finish i res =>
      cases res with
      | some c => exact absurd hb (by simp [benignEvent])
      | none =>
          show (finishTask s i none).group.firstError = none
            ∧ (finishTask s i none).deadlineElapsed = false
          unfold finishTask
          split
          · exact h
          split
          · exact h
          · exact h
  | stopOnCancel i =>
      show (stopTask s i).group.firstError = none ∧ (stopTask s i).deadlineElapsed = false
      unfold stopTask
      split
      · split
        · exact h
        split
        · exact h
        · exact h
      · exact h

/- ### Theorems: task group -/

/-- C1: `Wait` never returns while launched units are in flight: whenever it returns
(also on the deadline path, where it first triggers `cancelSignal` and keeps
blocking), the settlement state has `running = 0` and no task's `Run` is still
executing — every unit ever launched has returned. -/
theorem group_wait_full_join (s : SysState) (es : List GEvent) (r : Option GroupError)
    (sFin : SysState) (hwf : wfSys s) (h : waitFromState s es = some (r, sFin)) :
    sFin.group.running = 0 ∧ ∀ t ∈ sFin.tasks, t.status ≠ TaskStatus.running := by
  have h0 := (waitFromState_spec es s r sFin h).2
  have hwf2 : wfSys sFin :=
    waitFromState_preserve wfSys es s hwf (fun e _ u hu => stepEvent_wf e hu) r sFin h
  refine ⟨h0, ?_⟩
  have hz : sFin.tasks.countP (fun t => t.status == TaskStatus.running) = 0 := by
    unfold wfSys countRunning at hwf2; omega
  have hall := List.countP_eq_zero.mp hz
  intro t ht
  simpa using hall t ht

/-- C1 witness: the deadline scenario of the test suite — two blocked tasks, the
wait deadline elapses, and `Wait` returns only once both tasks have stopped. -/
theorem group_wait_full_join_witness :
    wfSys launchedPair
    ∧ (settledAfterDeadline.group.running = 0
       ∧ ∀ t ∈ settledAfterDeadline.tasks, t.status ≠ TaskStatus.running) :=
  ⟨by unfold wfSys countRunning; decide,
    group_wait_full_join launchedPair
      [GEvent.deadline, GEvent.stopOnCancel 0, GEvent.stopOnCancel 1]
      (some GroupError.deadlineExceeded) settledAfterDeadline
      (by unfold wfSys countRunning; decide) (by decide)⟩

/-- C2: when one unit returns error `E` while its sibling blocks until cancelled,
the failing return triggers `cancelSignal`, stores `E` in the empty `firstError`
slot, and `Wait` on an unbounded context returns exactly `E`; the sibling's
stop-count becomes 1 and the failing unit's stays 0. -/
theorem group_first_error_cancels_siblings (E : Nat) :
    (runEvents (initSys 2) [GEvent.go [0, 1], GEvent.finish 0 (some E)]).group.cancelSignal
      = true
    ∧ (runEvents (initSys 2) [GEvent.go [0, 1], GEvent.finish 0 (some E)]).group.firstError
      = some E
    ∧ (waitFromState launchedPair [GEvent.finish 0 (some E), GEvent.stopOnCancel 1]).map
        (fun p => (p.1, p.2.tasks.map (fun t => (t.runCount, t.stopCount))))
      = some (some (GroupError.taskError E), [(1, 0), (1, 1)]) :=
  ⟨rfl, rfl, rfl⟩

/-- C3: once `Cancel` has been called, `Go` invokes none of the supplied functions
and leaves the state untouched; in the test scenario (cancel before any `Go`), both
run-counts stay 0, nothing counts toward `running`, and `Wait` on an unbounded
context returns nil immediately. -/
theorem group_cancel_gates_launch (s : SysState) (idxs : List Nat)
    (hc : s.group.cancelSignal = true) :
    runEvents s [GEvent.go idxs] = s
    ∧ (runEvents (initSys 2) [GEvent.cancel, GEvent.go [0, 1]]).tasks.map
        (fun t => t.runCount) = [0, 0]
    ∧ (runEvents (initSys 2) [GEvent.cancel, GEvent.go [0, 1]]).group.running = 0
    ∧ waitFromState (runEvents (initSys 2) [GEvent.cancel, GEvent.go [0, 1]]) []
        = some (none, cancelledSys) := by
  refine ⟨?_, by decide, by decide, by decide⟩
  show List.foldl stepEvent s [GEvent.go idxs] = s
  rw [List.foldl_cons, List.foldl_nil]
  exact foldl_launchOne_cancelled idxs s hc

/-- C3 witness: `Go` on a group cancelled before any launch starts nothing. -/
theorem group_cancel_gates_launch_witness :
    runEvents cancelledSys [GEvent.go [0, 1]] = cancelledSys
    ∧ (runEvents (initSys 2) [GEvent.cancel, GEvent.go [0, 1]]).tasks.map
        (fun t => t.runCount) = [0, 0]
    ∧ (runEvents (initSys 2) [GEvent.cancel, GEvent.go [0, 1]]).group.running = 0
    ∧ waitFromState (runEvents (initSys 2) [GEvent.cancel, GEvent.go [0, 1]]) []
        = some (none, cancelledSys) :=
  group_cancel_gates_launch cancelledSys [0, 1] (by decide)

/-- C4: whenever `Wait` returns, its value is resolved with the documented
precedence from the settlement state — a stored task error first, else the deadline
error when the wait deadline elapsed, else nil; in particular when a task error and
the deadline both occur, the task error wins. -/
theorem group_wait_result_precedence (s : SysState) (es : List GEvent)
    (r : Option GroupError) (sFin : SysState)
    (h : waitFromState s es = some (r, sFin)) :
    r = (match sFin.group.firstError with
         | some c => some (GroupError.taskError c)
         | none =>
             if sFin.deadlineElapsed then some GroupError.deadlineExceeded else none)
    ∧ (waitFromState launchedPair
          [GEvent.deadline, GEvent.finish 0 (some 5), GEvent.stopOnCancel 1]).map Prod.fst
        = some (some (GroupError.taskError 5)) :=
  ⟨(waitFromState_spec es s r sFin h).1, by decide⟩

/-- C4 witness: the first-failure scenario instantiates the precedence theorem. -/
theorem group_wait_result_precedence_witness :
    some (GroupError.taskError 5)
      = (match settledAfterError5.group.firstError with
         | some c => some (GroupError.taskError c)
         | none =>
             if settledAfterError5.deadlineElapsed then some GroupError.deadlineExceeded
             else none)
    ∧ (waitFromState launchedPair
          [GEvent.deadline, GEvent.finish 0 (some 5), GEvent.stopOnCancel 1]).map Prod.fst
        = some (some (GroupError.taskError 5)) :=
  group_wait_result_precedence launchedPair
    [GEvent.finish 0 (some 5), GEvent.stopOnCancel 1]
    (some (GroupError.taskError 5)) settledAfterError5 (by decide)

/-- C5: when every event is benign — every launched unit returns nil (also after
observing cancellation) and the wait deadline never elapses — `Wait` returns nil no
matter how many `Cancel` calls the trace holds: cancellation alone is never reported
as an error; the explicit-cancel test scenario returns nil with both stop-counts 1. -/
theorem group_cancel_records_no_error (n : Nat) (pre es : List GEvent)
    (hb : ∀ e ∈ pre ++ es, benignEvent e = true)
    (r : Option GroupError) (sFin : SysState)
    (h : waitFromState (runEvents (initSys n) pre) es = some (r, sFin)) :
    r = none
    ∧ (waitFromState launchedPair
          [GEvent.cancel, GEvent.stopOnCancel 0, GEvent.stopOnCancel 1]).map
        (fun p => (p.1, p.2.tasks.map (fun t => t.stopCount)))
      = some (none, [1, 1]) := by
  refine ⟨?_, by decide⟩
  have hpre : (runEvents (initSys n) pre).group.firstError = none
      ∧ (runEvents (initSys n) pre).deadlineElapsed = false := by
    refine runEvents_preserve
      (fun u => u.group.firstError = none ∧ u.deadlineElapsed = false)
      pre (initSys n) ⟨rfl, rfl⟩ ?_
    intro e he u hu
    exact stepEvent_benign_no_error u e (hb e (List.mem_append_left es he)) hu
  have hfin : sFin.group.firstError = none ∧ sFin.deadlineElapsed = false := by
    refine waitFromState_preserve
      (fun u => u.group.firstError = none ∧ u.deadlineElapsed = false)
      es (runEvents (initSys n) pre) hpre ?_ r sFin h
    intro e he u hu
    exact stepEvent_benign_no_error u e (hb e (List.mem_append_right pre he)) hu
  rw [(waitFromState_spec es _ r sFin h).1]
  simp [waitResult, hfin.1, hfin.2]

/-- C5 witness: the explicit-cancel scenario — all units return nil after observing
cancellation, and `Wait` reports no error. -/
theorem group_cancel_records_no_error_witness :
    (none : Option GroupError) = none
    ∧ (waitFromState launchedPair
          [GEvent.cancel, GEvent.stopOnCancel 0, GEvent.stopOnCancel 1]).map
        (fun p => (p.1, p.2.tasks.map (fun t => t.stopCount)))
      = some (none, [1, 1]) :=
  group_cancel_records_no_error 2 [GEvent.go [0, 1]]
    [GEvent.cancel, GEvent.stopOnCancel 0, GEvent.stopOnCancel 1]
    (by decide) none settledAfterCancel (by decide)

/-- C6: `Cancel` is idempotent — a second `Cancel` step is the identity on the whole
observable state, dropping a repeated `cancel` from any trace changes nothing, and
`cancelSignal`, once triggered, stays triggered across every event (it transitions
at most once). -/
theorem group_cancel_idempotent (s : SysState) (e : GEvent) (s0 : SysState)
    (pre post : List GEvent) (hc : s.group.cancelSignal = true) :
    stepEvent (stepEvent s GEvent.cancel) GEvent.cancel = stepEvent s GEvent.cancel
    ∧ runEvents s0 (pre ++ GEvent.cancel :: GEvent.cancel :: post)
        = runEvents s0 (pre ++ GEvent.cancel :: post)
    ∧ (stepEvent s e).group.cancelSignal = true := by
  have key : ∀ u : SysState,
      stepEvent (stepEvent u GEvent.cancel) GEvent.cancel = stepEvent u GEvent.cancel :=
    fun u => rfl
  refine ⟨key s, ?_, stepEvent_cancel_mono s e hc⟩
  simp only [runEvents, List.foldl_append, List.foldl_cons]
  rw [key]

/-- C6 witness: idempotence instantiated on a cancelled two-task group. -/
theorem group_cancel_idempotent_witness :
    stepEvent (stepEvent cancelledSys GEvent.cancel) GEvent.cancel
      = stepEvent cancelledSys GEvent.cancel
    ∧ runEvents (initSys 2)
        ([GEvent.go [0, 1]] ++ GEvent.cancel :: GEvent.cancel :: [GEvent.stopOnCancel 0])
        = runEvents (initSys 2) ([GEvent.go [0, 1]] ++ GEvent.cancel :: [GEvent.stopOnCancel 0])
    ∧ (stepEvent cancelledSys (GEvent.go [0])).group.cancelSignal = true :=
  group_cancel_idempotent cancelledSys (GEvent.go [0]) (initSys 2)
    [GEvent.go [0, 1]] [GEvent.stopOnCancel 0] (by decide)
